import Mathlib

/-!
# served::net::server — listener lifecycle

A shallow embedding of `src/served/net/server.cpp` (constructor, destructor,
`run`, the three setters, `stop`, `do_accept`, `do_await_stop`) and of the
stability example `src/examples/stability/main.cpp`.

The server object is a record of its members.  The Asio objects it owns are
represented by the part of their state that the methods read or write:

* `_io_context` : flattened into `io_stopped` (what `stopped()` returns) and
  `pending_accepts` / `pending_waits`, the numbers of accept and signal-wait
  operations that have been submitted and whose handler has not run yet;
* `_signals` : the list of registered signals;
* `_acceptor` : open flag, reuse-address option, bound endpoint, listening flag;
* `_connection_manager` : the connections it tracks, in registration order;
* `_socket` : the slot's native handle, `none` when closed or moved-from;
* `_request_handler` : the identity of the multiplexer it was bound to;
* `_read_timeout`, `_write_timeout` (`int`), `_req_max_bytes` (`size_t`) : the
  stored values; they are only assigned and passed on, never computed with;
* `_threads` : the worker handles, each joinable, joined or detached.

Every library call a method makes is also appended to `calls`, a ghost log,
so that the order of effects can be stated; a call that throws is logged as
well.  Queries (`stopped()`, `is_open()`, `joinable()`, `size()`) are not logged.

The headers of `server`, `connection` and `connection_manager` are not among
the sources at hand; what is needed of the latter two is taken from the
interface description in the specification and marked as such.
-/

namespace Served

/-- Value of a `boost::system::error_code`; zero is success, so `!ec` is `ec = 0`. -/
abbrev ErrorCode := Int

/-- The signals named in the constructor. -/
inductive Signal where
  | SIGINT
  | SIGTERM
  | SIGQUIT
  deriving DecidableEq, Repr

/-- A resolved tcp endpoint. -/
structure Endpoint where
  host : String
  service : String
  deriving DecidableEq, Repr

/-- State of a `std::thread` handle.  `joined` and `detached` are both
non-joinable; they are kept apart to record which call released the handle. -/
inductive ThreadState where
  | joinable
  | joined
  | detached
  deriving DecidableEq, Repr

/-- One element of `_threads`; `id` is the position at which it was pushed. -/
structure Thread where
  id : Nat
  st : ThreadState
  deriving DecidableEq, Repr

/-- Modelled from the spec: the `connection` class (its header and source are
not part of the sources at hand).  The spec gives its constructor as
(execution context, accepted socket, connection manager reference, request
dispatch entry point, max bytes, read timeout, write timeout) and a `start()`
operation; the execution context and the manager are the server's own and are
not stored. -/
structure Connection where
  socket : Option Nat
  request_handler : Nat
  max_bytes : Nat
  read_timeout : Int
  write_timeout : Int
  started : Bool
  stopped : Bool
  deriving DecidableEq, Repr

/-- Modelled from the spec: the `connection` constructor, arguments in the
order the spec lists them (the two references to the server's own execution
context and connection manager left out). -/
def connection_new (socket : Option Nat) (request_handler : Nat) (max_bytes : Nat)
    (read_timeout : Int) (write_timeout : Int) : Connection :=
  { socket := socket, request_handler := request_handler, max_bytes := max_bytes,
    read_timeout := read_timeout, write_timeout := write_timeout,
    started := false, stopped := false }

/-- Modelled from the spec: the effect on a tracked connection of the manager
stopping it. -/
def Connection.stop (c : Connection) : Connection :=
  { c with stopped := true }

/-- The library calls made by the methods, in the order they are made. -/
inductive Call where
  | signals_add (sig : Signal)
  | signals_async_wait
  | resolver_resolve (address port : String)
  | acceptor_open
  | acceptor_set_reuse_address
  | acceptor_bind
  | acceptor_listen
  | acceptor_async_accept
  | acceptor_close
  | manager_start (c : Connection)
  | manager_stop_all
  | io_context_stop
  | io_context_run
  | thread_spawn (id : Nat)
  | thread_join (id : Nat)
  | thread_detach (id : Nat)
  | sleep_for_ms (ms : Nat)
  | threads_clear
  deriving DecidableEq, Repr

/-- The part of `boost::asio::ip::tcp::acceptor` the server uses. -/
structure Acceptor where
  is_open : Bool
  reuse_address : Bool
  bound : Option Endpoint
  listening : Bool
  deriving DecidableEq, Repr

/-- An acceptor as constructed from an io_context, and as left by `close()`. -/
def Acceptor.closed : Acceptor :=
  { is_open := false, reuse_address := false, bound := none, listening := false }

/-- The members of `served::net::server`, with the ghost log `calls`. -/
structure Server where
  io_stopped : Bool
  pending_accepts : Nat
  pending_waits : Nat
  _signals : List Signal
  _acceptor : Acceptor
  _connection_manager : List Connection
  _socket : Option Nat
  _request_handler : Nat
  _read_timeout : Int
  _write_timeout : Int
  _req_max_bytes : Nat
  _threads : List Thread
  calls : List Call
  deriving DecidableEq, Repr

/-- Exceptions the methods can raise. -/
inductive Exn where
  | resolve_failed (ec : ErrorCode)
  | open_failed (ec : ErrorCode)
  | bind_failed (ec : ErrorCode)
  | listen_failed (ec : ErrorCode)
  | detach_not_joinable (id : Nat)
  | terminate_joinable_destroyed (id : Nat)
  deriving DecidableEq, Repr

/-- Result of a method that may throw: the object's state is kept in both cases. -/
inductive Outcome where
  | ok (s : Server)
  | threw (e : Exn) (s : Server)
  deriving DecidableEq, Repr

/-- The state a method leaves behind, whether or not it threw. -/
def Outcome.state : Outcome → Server
  | .ok s => s
  | .threw _ s => s

/-- What lies outside the program: whether `<signal.h>` defines SIGQUIT, and
the results of the resolver and of the acceptor's open/bind/listen calls. -/
structure Env where
  sigquit_defined : Bool
  resolve : String → String → Except ErrorCode (Endpoint × List Endpoint)
  open_result : Endpoint → ErrorCode
  bind_result : Endpoint → ErrorCode
  listen_result : Endpoint → ErrorCode

/-- Append one call to the ghost log. -/
def Server.log (s : Server) (c : Call) : Server :=
  { s with calls := s.calls ++ [c] }

/-! ## Library operations on the members -/

/-- The call `_signals.add(sig)`. -/
def signals_add (sig : Signal) (s : Server) : Server :=
  { s with _signals := s._signals ++ [sig], calls := s.calls ++ [.signals_add sig] }

/-- The call `_acceptor.close()`: the acceptor goes back to its closed state.  An
accept that is still pending stays pending until its handler has run. -/
def acceptor_close (s : Server) : Server :=
  { s with _acceptor := Acceptor.closed, calls := s.calls ++ [.acceptor_close] }

/-- Modelled from the spec: `connection_manager::start` (the manager's source is
not part of the sources at hand): register the connection, then start it. -/
def connection_manager_start (c : Connection) (s : Server) : Server :=
  { s with _connection_manager := s._connection_manager ++ [{ c with started := true }],
           calls := s.calls ++ [.manager_start c] }

/-- Modelled from the spec: `connection_manager::stop_all` (the manager's source
is not part of the sources at hand): stop every tracked connection. -/
def connection_manager_stop_all (s : Server) : Server :=
  { s with _connection_manager := s._connection_manager.map Connection.stop,
           calls := s.calls ++ [.manager_stop_all] }

/-- The call `_io_context.stop()`. -/
def io_context_stop (s : Server) : Server :=
  { s with io_stopped := true, calls := s.calls ++ [.io_context_stop] }

/-- The call `_io_context.run()` made by the calling thread.  The completions it
dispatches are the events of the transition system below. -/
def io_context_run (s : Server) : Server :=
  s.log .io_context_run

/-- Whether `std::thread::joinable()` holds. -/
def Thread.is_joinable (t : Thread) : Bool :=
  t.st = .joinable

/-! ## The methods of `server` -/

/-- The method `server::do_accept`: submit one asynchronous accept. -/
def do_accept (s : Server) : Server :=
  { s with pending_accepts := s.pending_accepts + 1,
           calls := s.calls ++ [.acceptor_async_accept] }

/-- The method `server::do_await_stop`: submit one asynchronous signal wait. -/
def do_await_stop (s : Server) : Server :=
  { s with pending_waits := s.pending_waits + 1,
           calls := s.calls ++ [.signals_async_wait] }

/-- The completion handler passed to `async_accept` in `do_accept`. -/
def accept_handler (ec : ErrorCode) (s : Server) : Server :=
  if !s._acceptor.is_open then
    s
  else
    let s1 :=
      if ec = 0 then
        connection_manager_start
          (connection_new s._socket s._request_handler s._req_max_bytes
            s._read_timeout s._write_timeout)
          { s with _socket := none }
      else
        s
    do_accept s1

/-- The completion handler passed to `async_wait` in `do_await_stop`; both of
its arguments are unnamed in the source. -/
def await_stop_handler (_ec : ErrorCode) (_signo : Int) (s : Server) : Server :=
  connection_manager_stop_all (acceptor_close s)

/-- The member-initialiser list of the constructor. -/
def server_init (mux : Nat) : Server :=
  { io_stopped := false, pending_accepts := 0, pending_waits := 0,
    _signals := [], _acceptor := Acceptor.closed, _connection_manager := [],
    _socket := none, _request_handler := mux,
    _read_timeout := 0, _write_timeout := 0, _req_max_bytes := 0,
    _threads := [], calls := [] }

/-- The `if ( register_signals )` block of the constructor. -/
def register_signal_set (env : Env) (register_signals : Bool) (s : Server) : Server :=
  if register_signals then
    let s1 := signals_add .SIGTERM (signals_add .SIGINT s)
    if env.sigquit_defined then signals_add .SIGQUIT s1 else s1
  else
    s

/-- A successful `_acceptor.open(endpoint.protocol())`. -/
def acceptor_open (s : Server) : Server :=
  { s with _acceptor := { s._acceptor with is_open := true } }

/-- The call `_acceptor.set_option(reuse_address(true))`. -/
def acceptor_set_reuse_address (s : Server) : Server :=
  { s with _acceptor := { s._acceptor with reuse_address := true },
           calls := s.calls ++ [.acceptor_set_reuse_address] }

/-- A successful `_acceptor.bind(endpoint)`. -/
def acceptor_bind (endpoint : Endpoint) (s : Server) : Server :=
  { s with _acceptor := { s._acceptor with bound := some endpoint } }

/-- A successful `_acceptor.listen()`. -/
def acceptor_listen (s : Server) : Server :=
  { s with _acceptor := { s._acceptor with listening := true } }

/-- The constructor `server::server`.  A failing resolve, open, bind or listen
throws and no server exists afterwards. -/
def server_ctor (env : Env) (address port : String) (mux : Nat)
    (register_signals : Bool) : Except Exn Server :=
  let s1 := register_signal_set env register_signals (server_init mux)
  let s2 := do_await_stop s1
  let s3 := s2.log (.resolver_resolve address port)
  match env.resolve address port with
  | .error ec => .error (.resolve_failed ec)
  | .ok (endpoint, _) =>
    let s4 := s3.log .acceptor_open
    if env.open_result endpoint ≠ 0 then .error (.open_failed (env.open_result endpoint))
    else
      let s5 := acceptor_set_reuse_address (acceptor_open s4)
      let s6 := s5.log .acceptor_bind
      if env.bind_result endpoint ≠ 0 then .error (.bind_failed (env.bind_result endpoint))
      else
        let s7 := (acceptor_bind endpoint s6).log .acceptor_listen
        if env.listen_result endpoint ≠ 0 then
          .error (.listen_failed (env.listen_result endpoint))
        else
          .ok (do_accept (acceptor_listen s7))

/-- The method `server::set_read_timeout`. -/
def set_read_timeout (time_milliseconds : Int) (s : Server) : Server :=
  { s with _read_timeout := time_milliseconds }

/-- The method `server::set_write_timeout`. -/
def set_write_timeout (time_milliseconds : Int) (s : Server) : Server :=
  { s with _write_timeout := time_milliseconds }

/-- The method `server::set_max_request_bytes`. -/
def set_max_request_bytes (num_bytes : Nat) (s : Server) : Server :=
  { s with _req_max_bytes := num_bytes }

/-- The method `server::stop`. -/
def stop (s : Server) : Server :=
  if !s.io_stopped then io_context_stop s else s

/-- The statement `_threads.push_back(std::thread(...))`: a new joinable handle at the back. -/
def spawn_worker (s : Server) : Server :=
  { s with _threads := s._threads ++ [{ id := s._threads.length, st := .joinable }],
           calls := s.calls ++ [.thread_spawn s._threads.length] }

/-- The loop `for ( auto & thread : _threads )` of `run`.  `done` holds the
handles already visited, the second list the ones still to visit.  With
`block` a handle is joined when joinable; without it `detach()` is called
unguarded, which throws on a handle that is not joinable. -/
def run_loop (block : Bool) : List Thread → List Thread → Server → Outcome
  | done, [], s => .ok { s with _threads := done }
  | done, t :: rest, s =>
    if block then
      if t.is_joinable then
        run_loop block (done ++ [{ t with st := .joined }]) rest (s.log (.thread_join t.id))
      else
        run_loop block (done ++ [t]) rest s
    else
      if t.is_joinable then
        run_loop block (done ++ [{ t with st := .detached }]) rest (s.log (.thread_detach t.id))
      else
        .threw (.detach_not_joinable t.id)
          { s with _threads := done ++ t :: rest, calls := s.calls ++ [.thread_detach t.id] }

/-- The method `server::run`. -/
def run (n_threads : Int) (block : Bool) (s : Server) : Outcome :=
  if n_threads > 1 then
    let s1 := (List.range 1).foldl (fun st _ => spawn_worker st) s
    run_loop block [] s1._threads s1
  else
    .ok (io_context_run s)

/-- The loop `for ( auto & thread : _threads )` of the destructor: join what is joinable. -/
def dtor_loop : List Thread → List Thread → Server → Server
  | done, [], s => { s with _threads := done }
  | done, t :: rest, s =>
    if t.is_joinable then
      dtor_loop (done ++ [{ t with st := .joined }]) rest (s.log (.thread_join t.id))
    else
      dtor_loop (done ++ [t]) rest s

/-- The statement `_threads.clear()`: destroying a handle that is still joinable
calls `std::terminate`. -/
def threads_clear (s : Server) : Outcome :=
  match s._threads.find? Thread.is_joinable with
  | some t => .threw (.terminate_joinable_destroyed t.id) (s.log .threads_clear)
  | none => .ok { s with _threads := [], calls := s.calls ++ [.threads_clear] }

/-- The destructor `server::~server`. -/
def server_dtor (s : Server) : Outcome :=
  let s1 := acceptor_close s
  let s2 := connection_manager_stop_all s1
  let s3 := if !s2.io_stopped then io_context_stop s2 else s2
  if s3._threads.length > 0 then
    let s4 := dtor_loop [] s3._threads s3
    threads_clear (s4.log (.sleep_for_ms 1))
  else
    .ok s3

/-! ## The server as a transition system -/

/-- What Asio does when an accept completes, before the handler runs: the
operation is no longer pending and, on success, the peer is in the slot. -/
def deliver_accept (ec : ErrorCode) (peer : Nat) (s : Server) : Server :=
  { s with pending_accepts := s.pending_accepts - 1,
           _socket := if ec = 0 then some peer else s._socket }

/-- Completion of a pending accept: delivery, then the handler. -/
def accept_completion (ec : ErrorCode) (peer : Nat) (s : Server) : Option Server :=
  if s.pending_accepts = 0 then none
  else some (accept_handler ec (deliver_accept ec peer s))

/-- Completion of a pending signal wait: the wait is consumed, then the handler runs. -/
def signal_completion (ec : ErrorCode) (signo : Int) (s : Server) : Option Server :=
  if s.pending_waits = 0 then none
  else some (await_stop_handler ec signo { s with pending_waits := s.pending_waits - 1 })

/-- The events that can happen to a constructed server. -/
inductive Event where
  | accept_done (ec : ErrorCode) (peer : Nat)
  | signal_fired (ec : ErrorCode) (signo : Int)
  | call_stop
  | call_set_read_timeout (ms : Int)
  | call_set_write_timeout (ms : Int)
  | call_set_max_request_bytes (n : Nat)
  | call_run (n_threads : Int) (block : Bool)
  deriving DecidableEq, Repr

/-- One step; `none` when the event is not enabled (no such operation pending).
A `run` that throws still leaves its state behind. -/
def step (ev : Event) (s : Server) : Option Server :=
  match ev with
  | .accept_done ec peer => accept_completion ec peer s
  | .signal_fired ec signo => signal_completion ec signo s
  | .call_stop => some (stop s)
  | .call_set_read_timeout ms => some (set_read_timeout ms s)
  | .call_set_write_timeout ms => some (set_write_timeout ms s)
  | .call_set_max_request_bytes n => some (set_max_request_bytes n s)
  | .call_run n block => some (run n block s).state

/-- Run a sequence of events. -/
def exec : List Event → Server → Option Server
  | [], s => some s
  | ev :: evs, s =>
    match step ev s with
    | none => none
    | some s1 => exec evs s1

/-- Calling `stop()` `k` times. -/
def stop_times : Nat → Server → Server
  | 0, s => s
  | k + 1, s => stop_times k (stop s)

/-- Everything but the ghost log. -/
def Server.members (s : Server) : Server :=
  { s with calls := [] }

/-- Everything but the worker handles and the ghost log. -/
def Server.outside_threads (s : Server) : Server :=
  { s with _threads := [], calls := [] }

/-- Ids of the handles that are still joinable, in container order. -/
def joinable_ids (ts : List Thread) : List Nat :=
  (ts.filter Thread.is_joinable).map Thread.id

/-- Whether an event is a call of one of the three setters. -/
def Event.is_setter : Event → Bool
  | .call_set_read_timeout _ => true
  | .call_set_write_timeout _ => true
  | .call_set_max_request_bytes _ => true
  | _ => false

/-- Whether an event is the completion of an accept. -/
def Event.is_accept_done : Event → Bool
  | .accept_done _ _ => true
  | _ => false

/-- Number of asynchronous accepts submitted so far. -/
def accepts_issued (s : Server) : Nat :=
  s.calls.count .acceptor_async_accept

/-- Number of asynchronous signal waits submitted so far. -/
def waits_armed (s : Server) : Nat :=
  s.calls.count .signals_async_wait

/-- The body of `test(bool stop)` in the stability example, up to the point
where `server` goes out of scope: construct on 127.0.0.1:8123 without signal
registration, `run(10, false)`, optionally `stop()`, then the destructor. -/
def stability_test (env : Env) (mux : Nat) (do_stop : Bool) : Except Exn Outcome :=
  match server_ctor env "127.0.0.1" "8123" mux false with
  | .error e => .error e
  | .ok s0 =>
    match run 10 false s0 with
    | .threw e s1 => .ok (.threw e s1)
    | .ok s1 => .ok (server_dtor (if do_stop then stop s1 else s1))

/-- The signals the constructor registers. -/
def registered_signals (env : Env) (register_signals : Bool) : List Signal :=
  if register_signals then
    [.SIGINT, .SIGTERM] ++ (if env.sigquit_defined then [.SIGQUIT] else [])
  else
    []

/-- The server a successful constructor returns, member by member, given the
signals it registered and the endpoint the resolver returned first. -/
def constructed (sigs : List Signal) (address port : String) (mux : Nat)
    (endpoint : Endpoint) : Server :=
  { io_stopped := false, pending_accepts := 1, pending_waits := 1,
    _signals := sigs,
    _acceptor := { is_open := true, reuse_address := true, bound := some endpoint,
                   listening := true },
    _connection_manager := [], _socket := none, _request_handler := mux,
    _read_timeout := 0, _write_timeout := 0, _req_max_bytes := 0,
    _threads := [],
    calls := sigs.map Call.signals_add ++
      [.signals_async_wait, .resolver_resolve address port, .acceptor_open,
       .acceptor_set_reuse_address, .acceptor_bind, .acceptor_listen,
       .acceptor_async_accept] }

/-- The state `run(n, false)` with `n > 1` leaves when called on `s` with no
worker handle yet: one detached handle. -/
def after_nonblocking_run (s : Server) : Server :=
  { s with _threads := [{ id := 0, st := .detached }],
           calls := s.calls ++ [.thread_spawn 0, .thread_detach 0] }

/-- An environment in which every call succeeds and SIGQUIT is defined. -/
def env_ok : Env :=
  { sigquit_defined := true,
    resolve := fun a p => .ok ({ host := a, service := p }, []),
    open_result := fun _ => 0,
    bind_result := fun _ => 0,
    listen_result := fun _ => 0 }

/-- The server built by `server("127.0.0.1", "8123", mux, false)` in `env_ok`,
written out member by member. -/
def fresh_server : Server :=
  { io_stopped := false, pending_accepts := 1, pending_waits := 1,
    _signals := [],
    _acceptor := { is_open := true, reuse_address := true,
                   bound := some { host := "127.0.0.1", service := "8123" },
                   listening := true },
    _connection_manager := [], _socket := none, _request_handler := 7,
    _read_timeout := 0, _write_timeout := 0, _req_max_bytes := 0,
    _threads := [],
    calls := [.signals_async_wait, .resolver_resolve "127.0.0.1" "8123",
              .acceptor_open, .acceptor_set_reuse_address, .acceptor_bind,
              .acceptor_listen, .acceptor_async_accept] }

/-- The stability example's server after its first accept completed with
success, the peer being socket 41. -/
def accepted_server : Server :=
  accept_handler 0 (deliver_accept 0 41 fresh_server)

/-- The stability example's server after a signal wait completed with SIGTERM. -/
def signalled_server : Server :=
  await_stop_handler 0 15 { fresh_server with pending_waits := 0 }

/-! ## Frame lemmas for the loops over `_threads` -/

theorem run_loop_outside (block : Bool) (todo : List Thread) :
    ∀ (done : List Thread) (s : Server),
      (run_loop block done todo s).state.outside_threads = s.outside_threads := by
  induction todo with
  | nil => intro done s; rfl
  | cons t rest ih =>
    intro done s
    unfold run_loop
    split_ifs
    · rw [ih]; rfl
    · rw [ih]
    · rw [ih]; rfl
    · rfl

theorem run_loop_count (block : Bool) (c : Call)
    (hj : ∀ i, c ≠ .thread_join i) (hd : ∀ i, c ≠ .thread_detach i) (todo : List Thread) :
    ∀ (done : List Thread) (s : Server),
      (run_loop block done todo s).state.calls.count c = s.calls.count c := by
  induction todo with
  | nil => intro done s; rfl
  | cons t rest ih =>
    intro done s
    have h1 : ∀ i, List.count c [Call.thread_join i] = 0 := fun i =>
      List.count_eq_zero.mpr (by simpa using hj i)
    have h2 : ∀ i, List.count c [Call.thread_detach i] = 0 := fun i =>
      List.count_eq_zero.mpr (by simpa using hd i)
    unfold run_loop
    split_ifs
    · rw [ih]; simp [Server.log, List.count_append, h1]
    · rw [ih]
    · rw [ih]; simp [Server.log, List.count_append, h2]
    · simp [Outcome.state, List.count_append, h2]

theorem run_outside (n : Int) (block : Bool) (s : Server) :
    (run n block s).state.outside_threads = s.outside_threads := by
  unfold run
  split_ifs
  · simp only [List.range_succ, List.range_zero, List.nil_append, List.foldl_cons, List.foldl_nil]
    rw [run_loop_outside]; rfl
  · rfl

theorem run_count (n : Int) (block : Bool) (s : Server) (c : Call)
    (hj : ∀ i, c ≠ .thread_join i) (hd : ∀ i, c ≠ .thread_detach i)
    (hs : ∀ i, c ≠ .thread_spawn i) (hr : c ≠ .io_context_run) :
    (run n block s).state.calls.count c = s.calls.count c := by
  have h1 : ∀ i, List.count c [Call.thread_spawn i] = 0 := fun i =>
    List.count_eq_zero.mpr (by simpa using hs i)
  have h2 : List.count c [Call.io_context_run] = 0 :=
    List.count_eq_zero.mpr (by simpa using hr)
  unfold run
  split_ifs
  · simp only [List.range_succ, List.range_zero, List.nil_append, List.foldl_cons, List.foldl_nil]
    rw [run_loop_count block c hj hd]
    simp [spawn_worker, List.count_append, h1]
  · simp [Outcome.state, io_context_run, Server.log, List.count_append, h2]

theorem dtor_loop_eq (todo : List Thread) :
    ∀ (done : List Thread) (s : Server),
      dtor_loop done todo s =
        { s with _threads := done ++
                   todo.map (fun t => if t.is_joinable then { t with st := .joined } else t),
                 calls := s.calls ++ (joinable_ids todo).map Call.thread_join } := by
  induction todo with
  | nil => intro done s; simp [dtor_loop, joinable_ids]
  | cons t rest ih =>
    intro done s
    unfold dtor_loop
    split_ifs with h
    · rw [ih]; simp [Server.log, joinable_ids, h, List.filter_cons]
    · rw [ih]; simp [joinable_ids, h, List.filter_cons]

theorem find_joinable_after_join (ts : List Thread) :
    (ts.map (fun t => if t.is_joinable then { t with st := ThreadState.joined } else t)).find?
      Thread.is_joinable = none := by
  rw [List.find?_eq_none]
  intro t ht
  rw [List.mem_map] at ht
  obtain ⟨u, _, rfl⟩ := ht
  by_cases h : u.is_joinable = true
  · rw [if_pos h]; simp [Thread.is_joinable]
  · rw [if_neg h]; simpa using h

/-! ## What a successful constructor leaves -/

theorem register_signal_set_eq (env : Env) (rs : Bool) (s : Server) :
    register_signal_set env rs s =
      { s with _signals := s._signals ++ registered_signals env rs,
               calls := s.calls ++ (registered_signals env rs).map Call.signals_add } := by
  unfold register_signal_set registered_signals
  cases rs <;> cases env.sigquit_defined <;> simp [signals_add]

theorem ctor_ok_eq (env : Env) (address port : String) (mux : Nat) (rs : Bool) (s0 : Server)
    (h : server_ctor env address port mux rs = .ok s0) :
    ∃ ep, s0 = constructed (registered_signals env rs) address port mux ep := by
  unfold server_ctor at h
  simp only at h
  split at h
  · cases h
  · rename_i ep rest _
    split_ifs at h
    refine ⟨ep, ?_⟩
    rw [← Except.ok.inj h, register_signal_set_eq]
    simp [constructed, server_init, do_accept, do_await_stop, acceptor_listen, acceptor_bind,
      acceptor_set_reuse_address, acceptor_open, Server.log, Acceptor.closed]

theorem count_signals_add (c : Call) (hc : ∀ sig, c ≠ .signals_add sig) (sigs : List Signal) :
    (sigs.map Call.signals_add).count c = 0 := by
  rw [List.count_eq_zero]
  intro hmem
  obtain ⟨sig, _, hsig⟩ := List.mem_map.mp hmem
  exact hc sig hsig.symm

theorem ctor_succeeds (env : Env) (address port : String) (mux : Nat) (rs : Bool)
    (ep : Endpoint) (rest : List Endpoint)
    (hr : env.resolve address port = .ok (ep, rest)) (ho : env.open_result ep = 0)
    (hb : env.bind_result ep = 0) (hl : env.listen_result ep = 0) :
    server_ctor env address port mux rs
      = .ok (constructed (registered_signals env rs) address port mux ep) := by
  unfold server_ctor
  simp only [hr, ho, hb, hl, ne_eq, not_true_eq_false, if_false]
  rw [register_signal_set_eq]
  simp [constructed, server_init, do_accept, do_await_stop, acceptor_listen, acceptor_bind,
    acceptor_set_reuse_address, acceptor_open, Server.log, Acceptor.closed]

theorem constructed_accepts_issued (sigs : List Signal) (address port : String) (mux : Nat)
    (ep : Endpoint) : accepts_issued (constructed sigs address port mux ep) = 1 := by
  have h := count_signals_add .acceptor_async_accept (by intro sig; simp) sigs
  simp [accepts_issued, constructed, List.count_append, h, List.count_cons]

theorem constructed_waits_armed (sigs : List Signal) (address port : String) (mux : Nat)
    (ep : Endpoint) : waits_armed (constructed sigs address port mux ep) = 1 := by
  have h := count_signals_add .signals_async_wait (by intro sig; simp) sigs
  simp [waits_armed, constructed, List.count_append, h, List.count_cons]

/-! ## Construction -/

/-- C10, as the code has it: when resolve, open, bind and listen succeed the
constructor returns a server whose acceptor is open, has reuse-address set, is
bound to the first resolved endpoint and is listening; exactly one accept has
been submitted and is pending; exactly one signal wait has been submitted and is
pending whatever `register_signals` is; and the registered signals are SIGINT,
SIGTERM and (where defined) SIGQUIT when `register_signals` is true, none
otherwise. -/
theorem ctor_arms (env : Env) (address port : String) (mux : Nat) (rs : Bool)
    (ep : Endpoint) (rest : List Endpoint)
    (hr : env.resolve address port = .ok (ep, rest)) (ho : env.open_result ep = 0)
    (hb : env.bind_result ep = 0) (hl : env.listen_result ep = 0) :
    ∃ s, server_ctor env address port mux rs = .ok s ∧
      s._acceptor = { is_open := true, reuse_address := true, bound := some ep,
                      listening := true } ∧
      s.pending_accepts = 1 ∧ accepts_issued s = 1 ∧
      s.pending_waits = 1 ∧ waits_armed s = 1 ∧
      s._signals = (if rs then
          [Signal.SIGINT, Signal.SIGTERM] ++
            (if env.sigquit_defined then [Signal.SIGQUIT] else [])
        else []) := by
  refine ⟨_, ctor_succeeds env address port mux rs ep rest hr ho hb hl, rfl, rfl,
    constructed_accepts_issued _ _ _ _ _, rfl, constructed_waits_armed _ _ _ _ _, rfl⟩

/-- Instance of `ctor_arms`: 127.0.0.1:8123 with signal registration, every call succeeding. -/
theorem ctor_arms_witness :
    ∃ s, server_ctor env_ok "127.0.0.1" "8123" 7 true = .ok s ∧
      s._acceptor = { is_open := true, reuse_address := true,
                      bound := some { host := "127.0.0.1", service := "8123" },
                      listening := true } ∧
      s.pending_accepts = 1 ∧ accepts_issued s = 1 ∧
      s.pending_waits = 1 ∧ waits_armed s = 1 ∧
      s._signals = (if true = true then
          [Signal.SIGINT, Signal.SIGTERM] ++
            (if env_ok.sigquit_defined then [Signal.SIGQUIT] else [])
        else []) :=
  ctor_arms env_ok "127.0.0.1" "8123" 7 true { host := "127.0.0.1", service := "8123" } []
    rfl rfl rfl rfl

/-- C10 as written fails: constructed with `register_signals = false`, the
server has no signal registered and yet one signal wait submitted and pending
(`do_await_stop()` is called outside the `if ( register_signals )` block). -/
theorem ctor_without_signals_still_waits :
    ∃ s, server_ctor env_ok "127.0.0.1" "8123" 7 false = .ok s ∧
      s._signals = [] ∧ s.pending_waits ≠ 0 ∧ s.pending_waits = 1 ∧
      s.calls.head? = some .signals_async_wait :=
  ⟨fresh_server, rfl, rfl, by decide, rfl, rfl⟩

/-! ## stop() -/

theorem stop_stop (s : Server) : stop (stop s) = stop s := by
  cases h : s.io_stopped <;> simp [stop, io_context_stop, h]

theorem stop_outside (s : Server) :
    (stop s).pending_accepts = s.pending_accepts ∧ (stop s).pending_waits = s.pending_waits ∧
    (stop s)._acceptor = s._acceptor ∧ (stop s)._read_timeout = s._read_timeout ∧
    (stop s)._write_timeout = s._write_timeout ∧ (stop s)._req_max_bytes = s._req_max_bytes := by
  cases h : s.io_stopped <;> simp [stop, io_context_stop, h]

/-- C4: `stop` is idempotent; it is the identity on a server whose execution
context is already stopped and otherwise only sets the stopped flag (making the
single call `io_context::stop`); the acceptor, the tracked connections, the
three configuration scalars, the worker handles, the socket slot, the signal set
and the pending operations are the same before and after. -/
theorem stop_idempotent_frame (s : Server) :
    stop (stop s) = stop s ∧
    stop s = (if s.io_stopped then s
              else { s with io_stopped := true, calls := s.calls ++ [.io_context_stop] }) ∧
    (stop s).io_stopped = true ∧
    (stop s)._acceptor = s._acceptor ∧
    (stop s)._connection_manager = s._connection_manager ∧
    (stop s)._read_timeout = s._read_timeout ∧
    (stop s)._write_timeout = s._write_timeout ∧
    (stop s)._req_max_bytes = s._req_max_bytes ∧
    (stop s)._threads = s._threads ∧
    (stop s)._socket = s._socket ∧
    (stop s)._signals = s._signals ∧
    (stop s).pending_accepts = s.pending_accepts ∧
    (stop s).pending_waits = s.pending_waits := by
  cases h : s.io_stopped <;> simp [stop, io_context_stop, h]

theorem stop_times_succ (k : Nat) (s : Server) : stop_times (k + 1) s = stop s := by
  induction k generalizing s with
  | zero => rfl
  | succ k ih =>
    show stop_times (k + 1) (stop s) = stop s
    rw [ih, stop_stop]

/-! ## Destruction -/

theorem threads_clear_joined (s : Server) (h : s._threads.find? Thread.is_joinable = none) :
    threads_clear s = .ok { s with _threads := [], calls := s.calls ++ [.threads_clear] } := by
  unfold threads_clear
  rw [h]

theorem dtor_eq (s : Server) :
    server_dtor s = .ok
      { s with io_stopped := true, _acceptor := Acceptor.closed,
               _connection_manager := s._connection_manager.map Connection.stop,
               _threads := [],
               calls := s.calls ++ [.acceptor_close, .manager_stop_all] ++
                 (if s.io_stopped then [] else [.io_context_stop]) ++
                 (joinable_ids s._threads).map Call.thread_join ++
                 (if s._threads.length > 0 then [.sleep_for_ms 1, .threads_clear] else []) } := by
  unfold server_dtor
  by_cases ht : s._threads.length > 0
  · have hne : s._threads ≠ [] := by
      intro h0; rw [h0] at ht; exact absurd ht (by decide)
    cases h : s.io_stopped
    · simp only [acceptor_close, connection_manager_stop_all, io_context_stop, h, ht,
        Bool.not_false, Bool.not_true, if_true, if_false]
      rw [dtor_loop_eq, threads_clear_joined _ (find_joinable_after_join s._threads)]
      simp [Server.log, hne]
    · simp only [acceptor_close, connection_manager_stop_all, io_context_stop, h, ht,
        Bool.not_false, Bool.not_true, if_true, if_false]
      rw [dtor_loop_eq, threads_clear_joined _ (find_joinable_after_join s._threads)]
      simp [Server.log, hne]
  · have h0 : s._threads = [] := by
      cases hs : s._threads with
      | nil => rfl
      | cons t ts => rw [hs] at ht; exact absurd (Nat.succ_pos _) ht
    cases h : s.io_stopped <;>
      simp [acceptor_close, connection_manager_stop_all, io_context_stop, h, h0, joinable_ids]

/-- C5, as the code has it: from every server state the destructor returns
normally, having made these calls in this order: close the acceptor, stop all
tracked connections, stop the execution context if it was not stopped, join
each worker handle that is still joinable (a handle already joined or detached
is skipped), and, if there is any handle, pause 1 ms and clear the container.
It leaves the acceptor closed, every tracked connection stopped, the context
stopped and no worker handle. -/
theorem dtor_sequence (s : Server) :
    ∃ d, server_dtor s = .ok d ∧
      d.calls = s.calls ++ [.acceptor_close, .manager_stop_all] ++
        (if s.io_stopped then [] else [.io_context_stop]) ++
        (joinable_ids s._threads).map Call.thread_join ++
        (if s._threads.length > 0 then [.sleep_for_ms 1, .threads_clear] else []) ∧
      d._acceptor = Acceptor.closed ∧ d._acceptor.is_open = false ∧
      d._connection_manager = s._connection_manager.map Connection.stop ∧
      d.io_stopped = true ∧ d._threads = [] :=
  ⟨_, dtor_eq s, rfl, rfl, rfl, rfl, rfl, rfl⟩

/-- C5 as written fails: after `server(...)` and `run(10, false)` the worker that
`run` spawned is detached, and the destructor joins no thread at all. -/
theorem dtor_does_not_join_detached_worker :
    server_ctor env_ok "127.0.0.1" "8123" 7 false = .ok fresh_server ∧
    (run 10 false fresh_server).state._threads = [{ id := 0, st := .detached }] ∧
    Call.thread_spawn 0 ∈ (run 10 false fresh_server).state.calls ∧
    (server_dtor (run 10 false fresh_server).state).state.calls
      = (run 10 false fresh_server).state.calls ++
          [.acceptor_close, .manager_stop_all, .io_context_stop, .sleep_for_ms 1,
           .threads_clear] ∧
    Call.thread_join 0 ∉ (server_dtor (run 10 false fresh_server).state).state.calls := by
  refine ⟨rfl, rfl, by decide, rfl, by decide⟩

/-! ## run -/

theorem run_eq (n_threads : Int) (block : Bool) (s : Server) :
    run n_threads block s =
      if n_threads > 1 then run_loop block [] (spawn_worker s)._threads (spawn_worker s)
      else .ok (io_context_run s) := rfl

/-- C8: on a freshly constructed server `run(n_threads, block)` returns normally.
For `n_threads > 1` it pushes exactly one worker handle, which the caller joins
when `block` is true and detaches when it is false, and the caller does not
call `io_context::run`.  For `n_threads <= 1` no handle is added, the caller
calls `io_context::run`, and `run(n, true)` and `run(n, false)` are the same
function. -/
theorem run_workers (env : Env) (address port : String) (mux : Nat) (rs : Bool) (s0 : Server)
    (n_threads : Int) (block : Bool)
    (h : server_ctor env address port mux rs = .ok s0) :
    run n_threads block s0 = .ok
      (if n_threads > 1 then
        { s0 with _threads := [{ id := 0, st := if block then .joined else .detached }],
                  calls := s0.calls ++
                    [.thread_spawn 0, if block then .thread_join 0 else .thread_detach 0] }
       else
        { s0 with calls := s0.calls ++ [.io_context_run] }) ∧
    (n_threads > 1 → (run n_threads block s0).state._threads.length = s0._threads.length + 1 ∧
      Call.io_context_run ∉ (run n_threads block s0).state.calls) ∧
    (n_threads ≤ 1 → (run n_threads block s0).state._threads.length = s0._threads.length ∧
      (run n_threads block s0).state.calls = s0.calls ++ [.io_context_run] ∧
      ∀ s : Server, run n_threads true s = run n_threads false s) := by
  obtain ⟨ep, rfl⟩ := ctor_ok_eq env address port mux rs s0 h
  have hrun : Call.io_context_run ∉ List.map Call.signals_add (registered_signals env rs) := by
    intro hmem
    obtain ⟨sig, _, hsig⟩ := List.mem_map.mp hmem
    cases hsig
  refine ⟨?_, ?_, ?_⟩
  · by_cases hn : n_threads > 1
    · cases block <;>
        simp [run_eq, hn, spawn_worker, run_loop, constructed, Thread.is_joinable, Server.log]
    · simp [run_eq, hn, io_context_run, Server.log]
  · intro hn
    cases block <;>
      simp [run_eq, hn, spawn_worker, run_loop, constructed, Thread.is_joinable, Server.log,
        Outcome.state, hrun]
  · intro hn
    have hn1 : ¬ n_threads > 1 := not_lt.mpr hn
    refine ⟨?_, ?_, ?_⟩
    · simp [run_eq, hn1, io_context_run, Server.log, Outcome.state]
    · simp [run_eq, hn1, io_context_run, Server.log, Outcome.state]
    · intro s; simp [run_eq, hn1]

/-- Instance of `run_workers`: the stability example's `run(10, false)`. -/
theorem run_workers_witness :
    run 10 false fresh_server = .ok
      (if (10 : Int) > 1 then
        { fresh_server with
            _threads := [{ id := 0, st := if false = true then .joined else .detached }],
            calls := fresh_server.calls ++
              [.thread_spawn 0, if false = true then .thread_join 0 else .thread_detach 0] }
       else
        { fresh_server with calls := fresh_server.calls ++ [.io_context_run] }) :=
  (run_workers env_ok "127.0.0.1" "8123" 7 false fresh_server 10 false rfl).1

/-- C9 fails on the code: after `server(...)`, `run(2, false)` returns with
handle 0 detached; a second `run(2, false)` pushes handle 1 and then calls
`detach()` on handle 0 again, which is no longer joinable, so it throws, leaving
handle 1 joinable; the destructor then joins handle 1. -/
theorem second_nonblocking_run_detaches_twice :
    server_ctor env_ok "127.0.0.1" "8123" 7 false = .ok fresh_server ∧
    (∃ s1 s2 d,
      run 2 false fresh_server = .ok s1 ∧
      s1._threads = [{ id := 0, st := .detached }] ∧
      run 2 false s1 = .threw (.detach_not_joinable 0) s2 ∧
      s2._threads = [{ id := 0, st := .detached }, { id := 1, st := .joinable }] ∧
      s2.calls.count (.thread_detach 0) = 2 ∧
      server_dtor s2 = .ok d ∧
      d.calls = s2.calls ++ [.acceptor_close, .manager_stop_all, .io_context_stop,
        .thread_join 1, .sleep_for_ms 1, .threads_clear]) := by
  refine ⟨rfl, _, _, _, rfl, rfl, rfl, rfl, by decide, rfl, rfl⟩

/-! ## The accept completion handler -/

theorem accept_handler_closed (ec : ErrorCode) (s : Server) (hc : s._acceptor.is_open = false) :
    accept_handler ec s = s := by
  simp [accept_handler, hc]

theorem accept_handler_open (ec : ErrorCode) (s : Server) (ho : s._acceptor.is_open = true) :
    accept_handler ec s =
      (if ec = 0 then
        { s with _socket := none,
                 _connection_manager := s._connection_manager ++
                   [{ connection_new s._socket s._request_handler s._req_max_bytes
                        s._read_timeout s._write_timeout with started := true }],
                 pending_accepts := s.pending_accepts + 1,
                 calls := s.calls ++
                   [.manager_start (connection_new s._socket s._request_handler s._req_max_bytes
                      s._read_timeout s._write_timeout), .acceptor_async_accept] }
       else
        { s with pending_accepts := s.pending_accepts + 1,
                 calls := s.calls ++ [.acceptor_async_accept] }) := by
  by_cases he : ec = 0
  · simp [accept_handler, ho, he, connection_manager_start, do_accept]
  · simp [accept_handler, ho, he, do_accept]

theorem accept_handler_outside (ec : ErrorCode) (s : Server) :
    (accept_handler ec s).io_stopped = s.io_stopped ∧
    (accept_handler ec s).pending_waits = s.pending_waits ∧
    (accept_handler ec s)._acceptor = s._acceptor ∧
    (accept_handler ec s)._read_timeout = s._read_timeout ∧
    (accept_handler ec s)._write_timeout = s._write_timeout ∧
    (accept_handler ec s)._req_max_bytes = s._req_max_bytes ∧
    (accept_handler ec s)._threads = s._threads ∧
    waits_armed (accept_handler ec s) = waits_armed s := by
  cases ho : s._acceptor.is_open
  · rw [accept_handler_closed ec s ho]; simp
  · rw [accept_handler_open ec s ho]
    by_cases he : ec = 0 <;> simp [he, waits_armed, List.count_append, List.count_cons]

theorem accept_handler_issue (ec : ErrorCode) (s : Server) :
    accepts_issued (accept_handler ec s) ≤ accepts_issued s + 1 ∧
    (accept_handler ec s).pending_accepts
      = s.pending_accepts + (accepts_issued (accept_handler ec s) - accepts_issued s) := by
  cases ho : s._acceptor.is_open
  · rw [accept_handler_closed ec s ho]; simp
  · rw [accept_handler_open ec s ho]
    by_cases he : ec = 0 <;> simp [he, accepts_issued, List.count_append, List.count_cons]

/-! ## Steps -/

theorem run_fields (n : Int) (block : Bool) (s : Server) :
    (run n block s).state.io_stopped = s.io_stopped ∧
    (run n block s).state.pending_accepts = s.pending_accepts ∧
    (run n block s).state.pending_waits = s.pending_waits ∧
    (run n block s).state._acceptor = s._acceptor ∧
    (run n block s).state._connection_manager = s._connection_manager ∧
    (run n block s).state._read_timeout = s._read_timeout ∧
    (run n block s).state._write_timeout = s._write_timeout ∧
    (run n block s).state._req_max_bytes = s._req_max_bytes ∧
    accepts_issued (run n block s).state = accepts_issued s ∧
    waits_armed (run n block s).state = waits_armed s := by
  have h := run_outside n block s
  have e1 := congrArg Server.io_stopped h
  have e2 := congrArg Server.pending_accepts h
  have e3 := congrArg Server.pending_waits h
  have e4 := congrArg Server._acceptor h
  have e5 := congrArg Server._connection_manager h
  have e6 := congrArg Server._read_timeout h
  have e7 := congrArg Server._write_timeout h
  have e8 := congrArg Server._req_max_bytes h
  refine ⟨e1, e2, e3, e4, e5, e6, e7, e8, ?_, ?_⟩
  · exact run_count n block s _ (by intro i; simp) (by intro i; simp) (by intro i; simp)
      (by simp)
  · exact run_count n block s _ (by intro i; simp) (by intro i; simp) (by intro i; simp)
      (by simp)

theorem stop_counts (s : Server) :
    accepts_issued (stop s) = accepts_issued s ∧ waits_armed (stop s) = waits_armed s := by
  cases h : s.io_stopped <;>
    simp [stop, io_context_stop, h, accepts_issued, waits_armed, List.count_append,
      List.count_cons]

theorem await_stop_handler_eq (ec : ErrorCode) (signo : Int) (s : Server) :
    await_stop_handler ec signo s =
      { s with _acceptor := Acceptor.closed,
               _connection_manager := s._connection_manager.map Connection.stop,
               calls := s.calls ++ [.acceptor_close, .manager_stop_all] } := by
  simp [await_stop_handler, acceptor_close, connection_manager_stop_all]

theorem step_accept_done (ec : ErrorCode) (peer : Nat) (s s1 : Server)
    (h : accept_completion ec peer s = some s1) :
    s.pending_accepts ≠ 0 ∧
    accepts_issued s1 ≤ accepts_issued s + 1 ∧
    s1.pending_accepts = (s.pending_accepts - 1) + (accepts_issued s1 - accepts_issued s) := by
  unfold accept_completion at h
  split_ifs at h with h0
  have h1 := Option.some.inj h
  subst h1
  have hi := accept_handler_issue ec (deliver_accept ec peer s)
  exact ⟨h0, hi.1, hi.2⟩

theorem step_not_accept (ev : Event) (s s1 : Server) (hev : ev.is_accept_done = false)
    (h : step ev s = some s1) :
    s1.pending_accepts = s.pending_accepts ∧ accepts_issued s1 = accepts_issued s := by
  cases ev with
  | accept_done ec peer => simp [Event.is_accept_done] at hev
  | signal_fired ec signo =>
    simp only [step, signal_completion] at h
    split_ifs at h
    have h1 := Option.some.inj h
    subst h1
    rw [await_stop_handler_eq]
    simp [accepts_issued, List.count_append, List.count_cons]
  | call_stop =>
    have h1 := Option.some.inj h
    subst h1
    exact ⟨(stop_outside s).1, (stop_counts s).1⟩
  | call_set_read_timeout ms => have h1 := Option.some.inj h; subst h1; exact ⟨rfl, rfl⟩
  | call_set_write_timeout ms => have h1 := Option.some.inj h; subst h1; exact ⟨rfl, rfl⟩
  | call_set_max_request_bytes n => have h1 := Option.some.inj h; subst h1; exact ⟨rfl, rfl⟩
  | call_run n block =>
    have h1 := Option.some.inj h
    subst h1
    exact ⟨(run_fields n block s).2.1, (run_fields n block s).2.2.2.2.2.2.2.2.1⟩

theorem step_pending_le_one (ev : Event) (s s1 : Server) (hs : s.pending_accepts ≤ 1)
    (h : step ev s = some s1) : s1.pending_accepts ≤ 1 := by
  cases hev : ev.is_accept_done
  · rw [(step_not_accept ev s s1 hev h).1]; exact hs
  · cases ev with
    | accept_done ec peer =>
      obtain ⟨_, h2, h3⟩ := step_accept_done ec peer s s1 h
      omega
    | _ => simp [Event.is_accept_done] at hev

theorem exec_pending_le_one (evs : List Event) :
    ∀ (s s1 : Server), s.pending_accepts ≤ 1 → exec evs s = some s1 → s1.pending_accepts ≤ 1 := by
  induction evs with
  | nil => intro s s1 hs h; cases h; exact hs
  | cons ev evs ih =>
    intro s s1 hs h
    unfold exec at h
    split at h
    · cases h
    · rename_i s2 hstep
      exact ih s2 s1 (step_pending_le_one ev s s2 hs hstep) h

/-- C1: in every state reachable from a successful construction by accept
completions (any error code, endpoint open or closed), signal firings, `stop()`,
the setters and `run`, at most one accept is pending.  Construction submits
exactly one accept; an accept completion is enabled only while one is pending,
consumes it and submits at most one new one; no other step submits an accept or
changes the number pending. -/
theorem single_outstanding_accept (env : Env) (address port : String) (mux : Nat) (rs : Bool)
    (s0 : Server) (h : server_ctor env address port mux rs = .ok s0) :
    s0.pending_accepts = 1 ∧ accepts_issued s0 = 1 ∧
    (∀ evs s, exec evs s0 = some s → s.pending_accepts ≤ 1) ∧
    (∀ evs s ev s1, exec evs s0 = some s → step ev s = some s1 →
      if ev.is_accept_done then
        s.pending_accepts = 1 ∧ accepts_issued s1 ≤ accepts_issued s + 1 ∧
        s1.pending_accepts = (s.pending_accepts - 1) + (accepts_issued s1 - accepts_issued s)
      else
        s1.pending_accepts = s.pending_accepts ∧ accepts_issued s1 = accepts_issued s) := by
  obtain ⟨ep, rfl⟩ := ctor_ok_eq env address port mux rs s0 h
  have hinv : ∀ evs s, exec evs (constructed (registered_signals env rs) address port mux ep)
      = some s → s.pending_accepts ≤ 1 :=
    fun evs s he => exec_pending_le_one evs _ s (le_refl 1) he
  refine ⟨rfl, constructed_accepts_issued _ _ _ _ _, hinv, ?_⟩
  intro evs s ev s1 he hstep
  cases hev : ev.is_accept_done
  · simpa using step_not_accept ev s s1 hev hstep
  · cases ev with
    | accept_done ec peer =>
      obtain ⟨h1, h2, h3⟩ := step_accept_done ec peer s s1 hstep
      have := hinv evs s he
      simp only [if_true]
      exact ⟨by omega, h2, h3⟩
    | _ => simp [Event.is_accept_done] at hev

/-- Instance of `single_outstanding_accept`: the stability example's server, then
an accept that succeeds, one that fails, a signal, and the cancelled accept. -/
theorem single_outstanding_accept_witness :
    ∃ s, exec [.accept_done 0 41, .accept_done 125 0, .call_set_read_timeout 5,
               .signal_fired 0 15, .accept_done 125 0] fresh_server = some s ∧
      s.pending_accepts ≤ 1 ∧ s.pending_accepts = 0 ∧ accepts_issued s = 3 :=
  ⟨_, rfl,
    (single_outstanding_accept env_ok "127.0.0.1" "8123" 7 false fresh_server rfl).2.2.1
      [.accept_done 0 41, .accept_done 125 0, .call_set_read_timeout 5,
       .signal_fired 0 15, .accept_done 125 0] _ rfl,
    rfl, by decide⟩

theorem step_closed (ev : Event) (s s1 : Server) (hc : s._acceptor.is_open = false)
    (h : step ev s = some s1) :
    s1._acceptor.is_open = false ∧ accepts_issued s1 = accepts_issued s := by
  cases ev with
  | accept_done ec peer =>
    simp only [step, accept_completion] at h
    split_ifs at h
    have h1 := Option.some.inj h
    subst h1
    rw [accept_handler_closed ec _ (by exact hc)]
    exact ⟨hc, rfl⟩
  | signal_fired ec signo =>
    simp only [step, signal_completion] at h
    split_ifs at h
    have h1 := Option.some.inj h
    subst h1
    rw [await_stop_handler_eq]
    simp [accepts_issued, List.count_append, List.count_cons, Acceptor.closed]
  | call_stop =>
    have h1 := Option.some.inj h
    subst h1
    exact ⟨by rw [(stop_outside s).2.2.1]; exact hc, (stop_counts s).1⟩
  | call_set_read_timeout ms => have h1 := Option.some.inj h; subst h1; exact ⟨hc, rfl⟩
  | call_set_write_timeout ms => have h1 := Option.some.inj h; subst h1; exact ⟨hc, rfl⟩
  | call_set_max_request_bytes n => have h1 := Option.some.inj h; subst h1; exact ⟨hc, rfl⟩
  | call_run n block =>
    have h1 := Option.some.inj h
    subst h1
    exact ⟨by rw [(run_fields n block s).2.2.2.1]; exact hc,
      (run_fields n block s).2.2.2.2.2.2.2.2.1⟩

theorem step_waits (ev : Event) (s s1 : Server) (h : step ev s = some s1) :
    waits_armed s1 = waits_armed s ∧ s1.pending_waits ≤ s.pending_waits := by
  cases ev with
  | accept_done ec peer =>
    simp only [step, accept_completion] at h
    split_ifs at h
    have h1 := Option.some.inj h
    subst h1
    have ho := accept_handler_outside ec (deliver_accept ec peer s)
    exact ⟨ho.2.2.2.2.2.2.2, le_of_eq ho.2.1⟩
  | signal_fired ec signo =>
    simp only [step, signal_completion] at h
    split_ifs at h
    have h1 := Option.some.inj h
    subst h1
    rw [await_stop_handler_eq]
    simp [waits_armed, List.count_append, List.count_cons]
  | call_stop =>
    have h1 := Option.some.inj h
    subst h1
    exact ⟨(stop_counts s).2, le_of_eq (stop_outside s).2.1⟩
  | call_set_read_timeout ms => have h1 := Option.some.inj h; subst h1; exact ⟨rfl, le_refl _⟩
  | call_set_write_timeout ms => have h1 := Option.some.inj h; subst h1; exact ⟨rfl, le_refl _⟩
  | call_set_max_request_bytes n =>
    have h1 := Option.some.inj h; subst h1; exact ⟨rfl, le_refl _⟩
  | call_run n block =>
    have h1 := Option.some.inj h
    subst h1
    exact ⟨(run_fields n block s).2.2.2.2.2.2.2.2.2, le_of_eq (run_fields n block s).2.2.1⟩

theorem step_scalars (ev : Event) (s s1 : Server) (hev : ev.is_setter = false)
    (h : step ev s = some s1) :
    s1._req_max_bytes = s._req_max_bytes ∧ s1._read_timeout = s._read_timeout ∧
    s1._write_timeout = s._write_timeout := by
  cases ev with
  | accept_done ec peer =>
    simp only [step, accept_completion] at h
    split_ifs at h
    have h1 := Option.some.inj h
    subst h1
    have ho := accept_handler_outside ec (deliver_accept ec peer s)
    exact ⟨ho.2.2.2.2.2.1, ho.2.2.2.1, ho.2.2.2.2.1⟩
  | signal_fired ec signo =>
    simp only [step, signal_completion] at h
    split_ifs at h
    have h1 := Option.some.inj h
    subst h1
    rw [await_stop_handler_eq]
    exact ⟨rfl, rfl, rfl⟩
  | call_stop =>
    have h1 := Option.some.inj h
    subst h1
    exact ⟨(stop_outside s).2.2.2.2.2, (stop_outside s).2.2.2.1, (stop_outside s).2.2.2.2.1⟩
  | call_set_read_timeout ms => simp [Event.is_setter] at hev
  | call_set_write_timeout ms => simp [Event.is_setter] at hev
  | call_set_max_request_bytes n => simp [Event.is_setter] at hev
  | call_run n block =>
    have h1 := Option.some.inj h
    subst h1
    exact ⟨(run_fields n block s).2.2.2.2.2.2.2.1, (run_fields n block s).2.2.2.2.2.1,
      (run_fields n block s).2.2.2.2.2.2.1⟩

theorem exec_closed (evs : List Event) :
    ∀ (s s1 : Server), s._acceptor.is_open = false → exec evs s = some s1 →
      s1._acceptor.is_open = false ∧ accepts_issued s1 = accepts_issued s := by
  induction evs with
  | nil => intro s s1 hc h; cases h; exact ⟨hc, rfl⟩
  | cons ev evs ih =>
    intro s s1 hc h
    unfold exec at h
    split at h
    · cases h
    · rename_i s2 hstep
      obtain ⟨h1, h2⟩ := step_closed ev s s2 hc hstep
      obtain ⟨h3, h4⟩ := ih s2 s1 h1 h
      exact ⟨h3, h4.trans h2⟩

theorem exec_waits (evs : List Event) :
    ∀ (s s1 : Server), exec evs s = some s1 →
      waits_armed s1 = waits_armed s ∧ s1.pending_waits ≤ s.pending_waits := by
  induction evs with
  | nil => intro s s1 h; cases h; exact ⟨rfl, le_refl _⟩
  | cons ev evs ih =>
    intro s s1 h
    unfold exec at h
    split at h
    · cases h
    · rename_i s2 hstep
      obtain ⟨h1, h2⟩ := step_waits ev s s2 hstep
      obtain ⟨h3, h4⟩ := ih s2 s1 h
      exact ⟨h3.trans h1, le_trans h4 h2⟩

theorem exec_scalars (evs : List Event) :
    ∀ (s s1 : Server), (∀ ev ∈ evs, ev.is_setter = false) → exec evs s = some s1 →
      s1._req_max_bytes = s._req_max_bytes ∧ s1._read_timeout = s._read_timeout ∧
      s1._write_timeout = s._write_timeout := by
  induction evs with
  | nil => intro s s1 _ h; cases h; exact ⟨rfl, rfl, rfl⟩
  | cons ev evs ih =>
    intro s s1 hns h
    unfold exec at h
    split at h
    · cases h
    · rename_i s2 hstep
      obtain ⟨h1, h2, h3⟩ := step_scalars ev s s2 (hns ev (List.mem_cons_self _ _)) hstep
      obtain ⟨h4, h5, h6⟩ := ih s2 s1 (fun e he => hns e (List.mem_cons_of_mem _ he)) h
      exact ⟨h4.trans h1, h5.trans h2, h6.trans h3⟩

/-! ## Accept completions and signals -/

/-- C2: when the acceptor is closed the accept completion handler returns the
server exactly as it found it, whatever the error code: no connection is
registered, the socket slot is not moved from, no call is made and no accept is
submitted.  The completion as a whole therefore only consumes the pending accept,
and in a state reachable from a successful construction no accept is pending
afterwards. -/
theorem accept_on_closed (ec : ErrorCode) (s : Server) (hc : s._acceptor.is_open = false) :
    accept_handler ec s = s ∧
    (∀ peer, s.pending_accepts ≠ 0 →
      accept_completion ec peer s = some (deliver_accept ec peer s)) ∧
    (∀ peer s1, accept_completion ec peer s = some s1 →
      s1 = deliver_accept ec peer s ∧
      s1._connection_manager = s._connection_manager ∧ s1.calls = s.calls ∧
      accepts_issued s1 = accepts_issued s ∧
      s1.pending_accepts = s.pending_accepts - 1 ∧
      s1._acceptor = s._acceptor ∧ s1.io_stopped = s.io_stopped ∧ s1._threads = s._threads ∧
      s1._read_timeout = s._read_timeout ∧ s1._write_timeout = s._write_timeout ∧
      s1._req_max_bytes = s._req_max_bytes) ∧
    (∀ env address port mux rs s0 evs peer s1,
      server_ctor env address port mux rs = .ok s0 → exec evs s0 = some s →
      accept_completion ec peer s = some s1 → s1.pending_accepts = 0) := by
  have hcomp : ∀ peer s1, accept_completion ec peer s = some s1 →
      s.pending_accepts ≠ 0 ∧ s1 = deliver_accept ec peer s := by
    intro peer s1 h
    unfold accept_completion at h
    split_ifs at h with h0
    have h1 := Option.some.inj h
    rw [accept_handler_closed ec _ (by exact hc)] at h1
    exact ⟨h0, h1.symm⟩
  refine ⟨accept_handler_closed ec s hc, ?_, ?_, ?_⟩
  · intro peer h0
    unfold accept_completion
    rw [if_neg h0, accept_handler_closed ec _ (by exact hc)]
  · intro peer s1 h
    obtain ⟨_, rfl⟩ := hcomp peer s1 h
    exact ⟨rfl, rfl, rfl, rfl, rfl, rfl, rfl, rfl, rfl, rfl, rfl⟩
  · intro env address port mux rs s0 evs peer s1 hctor hexec h
    obtain ⟨_, rfl⟩ := hcomp peer s1 h
    obtain ⟨ep, rfl⟩ := ctor_ok_eq env address port mux rs s0 hctor
    have hle := exec_pending_le_one evs _ s (le_refl 1) hexec
    show s.pending_accepts - 1 = 0
    omega

/-- Instance of `accept_on_closed`: the accept cancelled by a signal-driven close. -/
theorem accept_on_closed_witness :
    exec [.signal_fired 0 15] fresh_server = some signalled_server ∧
    signalled_server._acceptor.is_open = false ∧
    accept_handler 125 signalled_server = signalled_server ∧
    accept_completion 125 0 signalled_server = some (deliver_accept 125 0 signalled_server) ∧
    (deliver_accept 125 0 signalled_server).pending_accepts = 0 :=
  ⟨rfl, rfl, (accept_on_closed 125 signalled_server rfl).1,
    (accept_on_closed 125 signalled_server rfl).2.1 0 (by decide),
    (accept_on_closed 125 signalled_server rfl).2.2.2 env_ok "127.0.0.1" "8123" 7 false
      fresh_server [.signal_fired 0 15] 0 _ rfl rfl rfl⟩

/-- C3: when the acceptor is open the handler always submits exactly one new
accept.  With `ec` success it registers and starts exactly one connection,
built from the socket moved out of the slot and from `_req_max_bytes`,
`_read_timeout`, `_write_timeout` as they are at that moment, in that order;
with `ec` an error the tracked connections are unchanged and nothing but the new
accept happens.  The setters leave the tracked connections alone, a connection
accepted after `set_read_timeout(a)`, `set_write_timeout(b)`,
`set_max_request_bytes(c)` carries `(c, a, b)`, and as long as no setter has
been called the three scalars are 0. -/
theorem accept_on_open (ec : ErrorCode) (s : Server) (ho : s._acceptor.is_open = true) :
    accept_handler ec s =
      (if ec = 0 then
        { s with _socket := none,
                 _connection_manager := s._connection_manager ++
                   [{ socket := s._socket, request_handler := s._request_handler,
                      max_bytes := s._req_max_bytes, read_timeout := s._read_timeout,
                      write_timeout := s._write_timeout, started := true, stopped := false }],
                 pending_accepts := s.pending_accepts + 1,
                 calls := s.calls ++
                   [.manager_start (connection_new s._socket s._request_handler s._req_max_bytes
                      s._read_timeout s._write_timeout), .acceptor_async_accept] }
       else
        { s with pending_accepts := s.pending_accepts + 1,
                 calls := s.calls ++ [.acceptor_async_accept] }) ∧
    ((accept_handler ec s)._connection_manager.length = s._connection_manager.length + 1 ↔ ec = 0) ∧
    (ec ≠ 0 → (accept_handler ec s)._connection_manager = s._connection_manager) ∧
    accepts_issued (accept_handler ec s) = accepts_issued s + 1 ∧
    (accept_handler ec s).pending_accepts = s.pending_accepts + 1 ∧
    (∀ (a b : Int) (c : Nat),
      (set_read_timeout a s)._connection_manager = s._connection_manager ∧
      (set_write_timeout b s)._connection_manager = s._connection_manager ∧
      (set_max_request_bytes c s)._connection_manager = s._connection_manager ∧
      (accept_handler 0
          (set_max_request_bytes c (set_write_timeout b (set_read_timeout a s))))._connection_manager
        = s._connection_manager ++
            [{ socket := s._socket, request_handler := s._request_handler,
               max_bytes := c, read_timeout := a, write_timeout := b,
               started := true, stopped := false }]) ∧
    (∀ env address port mux rs s0 evs,
      server_ctor env address port mux rs = .ok s0 →
      (∀ ev ∈ evs, Event.is_setter ev = false) → exec evs s0 = some s →
      s._req_max_bytes = 0 ∧ s._read_timeout = 0 ∧ s._write_timeout = 0) := by
  refine ⟨?_, ?_, ?_, ?_, ?_, ?_, ?_⟩
  · rw [accept_handler_open ec s ho]; rfl
  · rw [accept_handler_open ec s ho]
    by_cases he : ec = 0 <;> simp [he]
  · intro he
    rw [accept_handler_open ec s ho]
    simp [he]
  · rw [accept_handler_open ec s ho]
    by_cases he : ec = 0 <;> simp [he, accepts_issued, List.count_append, List.count_cons]
  · rw [accept_handler_open ec s ho]
    by_cases he : ec = 0 <;> simp [he]
  · intro a b c
    refine ⟨rfl, rfl, rfl, ?_⟩
    rw [accept_handler_open 0 _ (by exact ho)]
    rfl
  · intro env address port mux rs s0 evs hctor hns hexec
    obtain ⟨ep, rfl⟩ := ctor_ok_eq env address port mux rs s0 hctor
    exact exec_scalars evs _ s hns hexec

/-- Instance of `accept_on_open`: the first accept of the stability example's
server succeeds with peer socket 41 after the three setters were called. -/
theorem accept_on_open_witness :
    (accept_handler 0 (deliver_accept 0 41 (set_max_request_bytes 4096
        (set_write_timeout 20 (set_read_timeout 10 fresh_server)))))._connection_manager
      = [{ socket := some 41, request_handler := 7, max_bytes := 4096, read_timeout := 10,
           write_timeout := 20, started := true, stopped := false }] ∧
    fresh_server._req_max_bytes = 0 ∧ fresh_server._read_timeout = 0 ∧
    fresh_server._write_timeout = 0 :=
  ⟨congrArg Server._connection_manager
      (accept_on_open 0 (deliver_accept 0 41 (set_max_request_bytes 4096
        (set_write_timeout 20 (set_read_timeout 10 fresh_server)))) rfl).1,
    (accept_on_open 0 fresh_server rfl).2.2.2.2.2.2 env_ok "127.0.0.1" "8123" 7 false
      fresh_server [] rfl (by simp) rfl⟩

/-- C7: whatever error code and signal number it is given, the signal-wait
handler closes the acceptor and has the connection manager stop every tracked
connection, and does nothing else: the stopped flag of the execution context
is as it was and no signal wait is submitted.  After it has run the acceptor
stays closed through every later event, so an accept completion returns the
server unchanged and no accept is ever submitted again.  In every state
reachable from a successful construction exactly one signal wait has been
submitted in all, the constructor's, so at most one is pending. -/
theorem signal_stop (s : Server) (ec : ErrorCode) (signo : Int) :
    await_stop_handler ec signo s =
      { s with _acceptor := Acceptor.closed,
               _connection_manager := s._connection_manager.map Connection.stop,
               calls := s.calls ++ [.acceptor_close, .manager_stop_all] } ∧
    (await_stop_handler ec signo s)._acceptor.is_open = false ∧
    (await_stop_handler ec signo s).io_stopped = s.io_stopped ∧
    (await_stop_handler ec signo s).pending_waits = s.pending_waits ∧
    waits_armed (await_stop_handler ec signo s) = waits_armed s ∧
    (∀ ec2, accept_handler ec2 (await_stop_handler ec signo s) = await_stop_handler ec signo s) ∧
    (∀ evs s1, exec evs (await_stop_handler ec signo s) = some s1 →
      s1._acceptor.is_open = false ∧ accepts_issued s1 = accepts_issued s ∧
      waits_armed s1 = waits_armed s ∧
      ∀ ec2, accept_handler ec2 s1 = s1) ∧
    (∀ env address port mux rs s0 evs,
      server_ctor env address port mux rs = .ok s0 → exec evs s0 = some s →
      waits_armed s = 1 ∧ s.pending_waits ≤ 1) := by
  have hclosed : (await_stop_handler ec signo s)._acceptor.is_open = false := by
    rw [await_stop_handler_eq]; rfl
  have hissued : accepts_issued (await_stop_handler ec signo s) = accepts_issued s := by
    rw [await_stop_handler_eq]
    simp [accepts_issued, List.count_append, List.count_cons]
  have harmed : waits_armed (await_stop_handler ec signo s) = waits_armed s := by
    rw [await_stop_handler_eq]
    simp [waits_armed, List.count_append, List.count_cons]
  refine ⟨await_stop_handler_eq ec signo s, hclosed, ?_, ?_, harmed, ?_, ?_, ?_⟩
  · rw [await_stop_handler_eq]
  · rw [await_stop_handler_eq]
  · intro ec2
    exact accept_handler_closed ec2 _ hclosed
  · intro evs s1 hexec
    obtain ⟨h1, h2⟩ := exec_closed evs _ s1 hclosed hexec
    obtain ⟨h3, _⟩ := exec_waits evs _ s1 hexec
    exact ⟨h1, h2.trans hissued, h3.trans harmed, fun ec2 => accept_handler_closed ec2 s1 h1⟩
  · intro env address port mux rs s0 evs hctor hexec
    obtain ⟨ep, rfl⟩ := ctor_ok_eq env address port mux rs s0 hctor
    obtain ⟨h1, h2⟩ := exec_waits evs _ s hexec
    rw [constructed_waits_armed] at h1
    exact ⟨h1, h2⟩

/-- Instance of `signal_stop`: SIGTERM on the stability example's server after one
connection was accepted, followed by the cancelled accept and a second signal,
which is not enabled. -/
theorem signal_stop_witness :
    exec [.accept_done 0 41] fresh_server = some accepted_server ∧
    exec [.accept_done 125 0, .call_stop] (await_stop_handler 0 15 accepted_server)
      = some (stop (deliver_accept 125 0 (await_stop_handler 0 15 accepted_server))) ∧
    (stop (deliver_accept 125 0 (await_stop_handler 0 15 accepted_server)))._acceptor.is_open
      = false ∧
    accepts_issued (stop (deliver_accept 125 0 (await_stop_handler 0 15 accepted_server)))
      = accepts_issued accepted_server ∧
    waits_armed accepted_server = 1 ∧
    (stop (deliver_accept 125 0 (await_stop_handler 0 15 accepted_server))).pending_accepts
      = 0 ∧
    exec [.signal_fired 0 15, .signal_fired 0 15] fresh_server = none :=
  ⟨rfl, rfl,
    ((signal_stop accepted_server 0 15).2.2.2.2.2.2.1 [.accept_done 125 0, .call_stop]
      (stop (deliver_accept 125 0 (await_stop_handler 0 15 accepted_server))) rfl).1,
    ((signal_stop accepted_server 0 15).2.2.2.2.2.2.1 [.accept_done 125 0, .call_stop]
      (stop (deliver_accept 125 0 (await_stop_handler 0 15 accepted_server))) rfl).2.1,
    ((signal_stop accepted_server 0 15).2.2.2.2.2.2.2 env_ok "127.0.0.1" "8123" 7 false
      fresh_server [.accept_done 0 41] rfl rfl).1,
    rfl, rfl⟩

/-! ## The stability example -/

theorem run_nonblocking_constructed (sigs : List Signal) (address port : String) (mux : Nat)
    (ep : Endpoint) (n : Int) (hn : n > 1) :
    run n false (constructed sigs address port mux ep)
      = .ok (after_nonblocking_run (constructed sigs address port mux ep)) := by
  simp [run_eq, hn, spawn_worker, run_loop, constructed, Thread.is_joinable, Server.log,
    after_nonblocking_run]

/-- C6, as the code has it: for a server constructed and then run with
`run(n, false)`, `n > 1`, destruction after `k` calls of `stop()` returns
normally and leaves every member exactly as destruction without any `stop()`
does: acceptor closed, tracked connections stopped, context stopped, no worker
handle.  The calls made are the same ones, but not in the same order: with no
`stop()` the context is stopped third (close, stop all, stop context, pause,
clear); with one or more it is stopped first, once (stop context, close, stop
all, pause, clear). -/
theorem stop_count_shutdown (env : Env) (address port : String) (mux : Nat) (rs : Bool)
    (s0 : Server) (n : Int) (k : Nat)
    (h : server_ctor env address port mux rs = .ok s0) (hn : n > 1) :
    ∃ s d0 dk, run n false s0 = .ok s ∧
      server_dtor s = .ok d0 ∧ server_dtor (stop_times k s) = .ok dk ∧
      dk.members = d0.members ∧
      d0._acceptor.is_open = false ∧ d0.io_stopped = true ∧ d0._threads = [] ∧
      d0._connection_manager = s._connection_manager.map Connection.stop ∧
      d0.calls = s.calls ++ [.acceptor_close, .manager_stop_all, .io_context_stop,
        .sleep_for_ms 1, .threads_clear] ∧
      dk.calls = s.calls ++
        (if k = 0 then
          [.acceptor_close, .manager_stop_all, .io_context_stop, .sleep_for_ms 1,
           .threads_clear]
         else
          [.io_context_stop, .acceptor_close, .manager_stop_all, .sleep_for_ms 1,
           .threads_clear]) ∧
      (dk.calls.Perm d0.calls) := by
  obtain ⟨ep, rfl⟩ := ctor_ok_eq env address port mux rs s0 h
  have hs := run_nonblocking_constructed (registered_signals env rs) address port mux ep n hn
  generalize hS : after_nonblocking_run
    (constructed (registered_signals env rs) address port mux ep) = S at hs
  have hst : S.io_stopped = false := by rw [← hS]; rfl
  have hth : S._threads = [{ id := 0, st := .detached }] := by rw [← hS]; rfl
  have hkS : ∀ j, stop_times (j + 1) S
      = { S with io_stopped := true, calls := S.calls ++ [.io_context_stop] } := by
    intro j
    rw [stop_times_succ]
    simp [stop, io_context_stop, hst]
  have h0 : server_dtor S = .ok (server_dtor S).state := by rw [dtor_eq]; rfl
  have hk : server_dtor (stop_times k S) = .ok (server_dtor (stop_times k S)).state := by
    rw [dtor_eq]; rfl
  have c0 : (server_dtor S).state.calls = S.calls ++ [.acceptor_close, .manager_stop_all,
      .io_context_stop, .sleep_for_ms 1, .threads_clear] := by
    rw [dtor_eq]
    simp [Outcome.state, hst, hth, joinable_ids, Thread.is_joinable]
  have ck : (server_dtor (stop_times k S)).state.calls = S.calls ++
      (if k = 0 then
        [.acceptor_close, .manager_stop_all, .io_context_stop, .sleep_for_ms 1,
         .threads_clear]
       else
        [.io_context_stop, .acceptor_close, .manager_stop_all, .sleep_for_ms 1,
         .threads_clear]) := by
    cases k with
    | zero => simpa using c0
    | succ j =>
      rw [hkS, dtor_eq]
      simp [Outcome.state, hth, joinable_ids, Thread.is_joinable]
  refine ⟨S, _, _, hs, h0, hk, ?_, ?_, ?_, ?_, ?_, c0, ck, ?_⟩
  · cases k with
    | zero => rfl
    | succ j =>
      rw [hkS, dtor_eq, dtor_eq]
      simp [Outcome.state, Server.members]
  · rw [dtor_eq]; rfl
  · rw [dtor_eq]; rfl
  · rw [dtor_eq]; rfl
  · rw [dtor_eq]; rfl
  · rw [ck, c0]
    refine List.Perm.append_left _ ?_
    cases k with
    | zero => exact List.Perm.refl _
    | succ j =>
      simp only [Nat.succ_ne_zero, if_false]
      decide

/-- Instance of `stop_count_shutdown`: the stability example's server, `run(10, false)`,
three calls of `stop()`. -/
theorem stop_count_shutdown_witness :
    ∃ s d0 dk, run 10 false fresh_server = .ok s ∧
      server_dtor s = .ok d0 ∧ server_dtor (stop_times 3 s) = .ok dk ∧
      dk.members = d0.members ∧
      d0._acceptor.is_open = false ∧ d0.io_stopped = true ∧ d0._threads = [] ∧
      d0._connection_manager = s._connection_manager.map Connection.stop ∧
      d0.calls = s.calls ++ [.acceptor_close, .manager_stop_all, .io_context_stop,
        .sleep_for_ms 1, .threads_clear] ∧
      dk.calls = s.calls ++
        (if 3 = 0 then
          [.acceptor_close, .manager_stop_all, .io_context_stop, .sleep_for_ms 1,
           .threads_clear]
         else
          [.io_context_stop, .acceptor_close, .manager_stop_all, .sleep_for_ms 1,
           .threads_clear]) ∧
      (dk.calls.Perm d0.calls) :=
  stop_count_shutdown env_ok "127.0.0.1" "8123" 7 false fresh_server 10 3 rfl (by decide)

/-- C6 as written fails: in the stability example, `test(true)` and `test(false)`
both end normally and leave the same members, but the sequences of calls differ:
with `stop()` the execution context is stopped before the acceptor is closed and
the connections are stopped, without it after. -/
theorem stop_changes_shutdown_order :
    ∃ d1 d0, stability_test env_ok 7 true = .ok (.ok d1) ∧
      stability_test env_ok 7 false = .ok (.ok d0) ∧
      d1.members = d0.members ∧
      d1.calls = (after_nonblocking_run fresh_server).calls ++
        [.io_context_stop, .acceptor_close, .manager_stop_all, .sleep_for_ms 1,
         .threads_clear] ∧
      d0.calls = (after_nonblocking_run fresh_server).calls ++
        [.acceptor_close, .manager_stop_all, .io_context_stop, .sleep_for_ms 1,
         .threads_clear] ∧
      d1.calls ≠ d0.calls ∧
      server_dtor (stop_times 1 (after_nonblocking_run fresh_server))
        ≠ server_dtor (after_nonblocking_run fresh_server) := by
  refine ⟨_, _, rfl, rfl, rfl, rfl, rfl, by decide, by decide⟩

end Served
